import Mathlib

/-!
Verification development for the incident-tracking service.

The Go sources are shallowly embedded: MongoDB ObjectIDs become natural
numbers below 16^24 together with their 24-character hex rendering,
`time.Now` becomes a logical clock carried in the store state, and
`primitive.NewObjectID` becomes a fresh-id counter carried in the store
state.  Statuses, severities and note types are strings, exactly as in
the Go source (`type IncidentStatus string`, ...).  Fallible operations
return `Except`; operations that may mutate the store thread a `Store`
value explicitly.
-/

namespace IncidentSvc


/-- The sixteen hexadecimal digit characters, lower case. -/
def hexChars : List Char := "0123456789abcdef".data

/-- Character for one hex digit (used by `ObjectID.Hex`). -/
def hexDigitChar (n : Nat) : Char := hexChars.getD n '0'

/-- Is `c` a hexadecimal digit (either case), as accepted by `encoding/hex`. -/
def isHexDigitB (c : Char) : Bool :=
  c.isDigit || ('a' ≤ c && c ≤ 'f') || ('A' ≤ c && c ≤ 'F')

/-- Numeric value of a hexadecimal digit character. -/
def hexDigitVal (c : Char) : Nat :=
  if c.isDigit then c.toNat - 48
  else if 'a' ≤ c && c ≤ 'f' then c.toNat - 87
  else if 'A' ≤ c && c ≤ 'F' then c.toNat - 55
  else 0

/-- Fixed-width big-endian base-16 rendering of `n` (`w` digits). -/
def toHexList : Nat → Nat → List Char
  | 0, _ => []
  | w + 1, n => toHexList w (n / 16) ++ [hexDigitChar (n % 16)]

/-- `primitive.ObjectID.Hex`: the 24-character lower-case hex string of an id. -/
def oidHex (n : Nat) : String := String.mk (toHexList 24 n)

/-- `primitive.ObjectIDFromHex`: accepts exactly 24 hex characters and
decodes them; every other string is rejected. -/
def objectIDFromHex (s : String) : Option Nat :=
  if s.data.length = 24 ∧ s.data.all isHexDigitB then
    some (s.data.foldl (fun a c => 16 * a + hexDigitVal c) 0)
  else none

/-- `strconv.Atoi`: optional sign, at least one digit, all digits, and the
signed value must fit in a 64-bit integer (out-of-range input returns an
error in Go, modelled as `none`). -/
def atoi (s : String) : Option Int :=
  match s.data with
  | [] => none
  | c :: rest =>
    let p : Bool × List Char :=
      if c = '+' then (false, rest)
      else if c = '-' then (true, rest)
      else (false, c :: rest)
    if p.2 ≠ [] ∧ p.2.all Char.isDigit then
      let v : Nat := p.2.foldl (fun a d => 10 * a + (d.toNat - 48)) 0
      if p.1 then
        if v ≤ 2 ^ 63 then some (-(v : Int)) else none
      else
        if v ≤ 2 ^ 63 - 1 then some (v : Int) else none
    else none

/-- `strings.Trim(s, " ")`: strip leading and trailing spaces. -/
def goTrim (s : String) : String :=
  String.mk (((s.data.dropWhile (· == ' ')).reverse.dropWhile (· == ' ')).reverse)

/-- Status constant `models.Open`. -/
def Open : String := "open"

/-- Status constant `models.InProgress`. -/
def InProgress : String := "in_progress"

/-- Status constant `models.Resolved`. -/
def Resolved : String := "resolved"

/-- Status constant `models.Closed`. -/
def Closed : String := "closed"

/-- `models.ValidStatuses`. -/
def ValidStatuses : List String := [Open, InProgress, Resolved, Closed]

/-- `models.IncidentStatus.IsValid`: linear scan over `ValidStatuses`. -/
def statusIsValid (s : String) : Bool := ValidStatuses.contains s

/-- Severity constant `models.Low`. -/
def Low : String := "low"

/-- Severity constant `models.Medium`. -/
def Medium : String := "medium"

/-- Severity constant `models.High`. -/
def High : String := "high"

/-- Severity constant `models.Critical`. -/
def Critical : String := "critical"

/-- `models.ValidSeverities`. -/
def ValidSeverities : List String := [Low, Medium, High, Critical]

/-- `models.IncidentSeverity.IsValid`: linear scan over `ValidSeverities`. -/
def severityIsValid (s : String) : Bool := ValidSeverities.contains s

/-- `models.Note`.  `type` is a `NoteType` (a string in Go); its zero value
is the empty string. -/
structure Note where
  id : Nat
  content : String
  createdAt : Nat
  authorEmail : String
  type : String
deriving DecidableEq, Repr, Inhabited

/-- `models.Watcher`. -/
structure Watcher where
  email : String
deriving DecidableEq, Repr, Inhabited

/-- `models.Incident`. -/
structure Incident where
  id : Nat
  incidentKey : Int
  title : String
  severity : String
  status : String
  createdAt : Nat
  updatedAt : Nat
  notes : List Note
  watchList : List Watcher
  createdBy : String
  description : String
  assignee : String
deriving DecidableEq, Repr, Inhabited

/-- `models.CreateIncidentRequest`. -/
structure CreateIncidentRequest where
  title : String
  severity : String
  description : String
  notes : List Note
  authorEmail : String
  assignee : String
deriving DecidableEq, Repr, Inhabited

/-- `models.UpdateIncidentStatusRequest`.  Note: it has no way to set any
field of the incident other than `status` (plus the author email). -/
structure UpdateIncidentStatusRequest where
  status : String
  authorEmail : String
deriving DecidableEq, Repr, Inhabited

/-- `models.UpdateIncidentSeverityRequest`. -/
structure UpdateIncidentSeverityRequest where
  severity : String
  authorEmail : String
deriving DecidableEq, Repr, Inhabited

/-- `models.AddNoteRequest`. -/
structure AddNoteRequest where
  content : String
  authorEmail : String
  type : String
deriving DecidableEq, Repr, Inhabited

/-- The MongoDB incidents collection plus the two effect sources the Go
code draws on: `primitive.NewObjectID()` (modelled by the `nextOid`
counter) and `time.Now()` (modelled by the `now` clock). -/
structure Store where
  incidents : List Incident
  nextOid : Nat
  now : Nat
deriving DecidableEq, Repr, Inhabited

/-- Errors produced by `repository.IncidentRepository` operations. -/
inductive RepoError where
  | invalidIdFormat
  | notFound
deriving DecidableEq, Repr

/-- Errors produced by `services.IncidentService` operations, one
constructor per distinct `fmt.Errorf` wrap in the source. -/
inductive ServiceError where
  | invalidSeverity (s : String)
  | invalidStatus (s : String)
  | invalidEmail (e : String)
  | incidentNotFound (e : RepoError)
  | invalidTransition (src dst : String)
  | updateStatusFailed (e : RepoError)
  | updateSeverityFailed (e : RepoError)
  | addNoteFailed (e : RepoError)
  | addWatcherFailed (e : RepoError)
  | statusPartialFailure (e : ServiceError)
  | severityPartialFailure (e : ServiceError)
deriving DecidableEq, Repr

/-- First incident in the collection matching `_id = oid`
(`FindOne`, `FindOneAndUpdate` filter). -/
def findIncidentByOid (st : Store) (oid : Nat) : Option Incident :=
  st.incidents.find? (fun i => i.id = oid)

/-- First incident in the collection matching `incident_key = k`. -/
def findIncidentByKey (st : Store) (k : Int) : Option Incident :=
  st.incidents.find? (fun i => i.incidentKey = k)

/-- Apply `f` to the first incident whose `_id` is `oid`
(`FindOneAndUpdate` update step). -/
def updateFirstByOid (l : List Incident) (oid : Nat) (f : Incident → Incident) :
    List Incident :=
  match l with
  | [] => []
  | i :: rest =>
    if i.id = oid then f i :: rest else i :: updateFirstByOid rest oid f

/-- `$addToSet` on the `watchlist` array: append the watcher only when it
is not already an element. -/
def addToSet (l : List Watcher) (w : Watcher) : List Watcher :=
  if l.contains w then l else l ++ [w]

/-- `IncidentRepository.Create`: stamp `createdAt`/`updatedAt` with one
`time.Now()` value, assign a fresh ObjectID, insert. -/
def repoCreate (st : Store) (inc : Incident) : Store × Incident :=
  let stamped := { inc with createdAt := st.now, updatedAt := st.now, id := st.nextOid }
  ({ st with incidents := st.incidents ++ [stamped], nextOid := st.nextOid + 1 },
   stamped)

/-- `IncidentRepository.UpdateStatus`: parse the id as 24-char hex,
`FindOneAndUpdate` setting `status` and `updated_at`, return the
post-update document. -/
def repoUpdateStatus (st : Store) (id : String) (status : String) :
    Except RepoError (Store × Incident) :=
  match objectIDFromHex id with
  | none => .error .invalidIdFormat
  | some oid =>
    match findIncidentByOid st oid with
    | none => .error .notFound
    | some inc =>
      let upd := { inc with status := status, updatedAt := st.now }
      .ok ({ st with incidents := updateFirstByOid st.incidents oid (fun _ => upd) },
           upd)

/-- `IncidentRepository.UpdateSeverity`: parse the id as 24-char hex,
`FindOneAndUpdate` setting `severity` and `updated_at`. -/
def repoUpdateSeverity (st : Store) (id : String) (severity : String) :
    Except RepoError (Store × Incident) :=
  match objectIDFromHex id with
  | none => .error .invalidIdFormat
  | some oid =>
    match findIncidentByOid st oid with
    | none => .error .notFound
    | some inc =>
      let upd := { inc with severity := severity, updatedAt := st.now }
      .ok ({ st with incidents := updateFirstByOid st.incidents oid (fun _ => upd) },
           upd)

/-- `IncidentRepository.AddNote`: parse the id as 24-char hex, give the
note a fresh id and timestamp, `$push` it onto `notes`, refresh
`updated_at`. -/
def repoAddNote (st : Store) (incidentID : String) (note : Note) :
    Except RepoError (Store × Incident) :=
  match objectIDFromHex incidentID with
  | none => .error .invalidIdFormat
  | some oid =>
    let stamped := { note with id := st.nextOid, createdAt := st.now }
    match findIncidentByOid st oid with
    | none => .error .notFound
    | some inc =>
      let upd := { inc with notes := inc.notes ++ [stamped], updatedAt := st.now }
      .ok ({ st with
              incidents := updateFirstByOid st.incidents oid (fun _ => upd),
              nextOid := st.nextOid + 1 },
           upd)

/-- `IncidentRepository.GetByID`: the caller id is parsed with
`strconv.Atoi` and the incident is fetched by `incident_key`. -/
def repoGetByID (st : Store) (id : String) : Except RepoError Incident :=
  match atoi id with
  | none => .error .invalidIdFormat
  | some k =>
    match findIncidentByKey st k with
    | none => .error .notFound
    | some inc => .ok inc

/-- `IncidentRepository.AddWatcherToIncident`: parse the id as 24-char
hex, `$addToSet` the watcher, refresh `updated_at`. -/
def repoAddWatcherToIncident (st : Store) (incidentID : String) (w : Watcher) :
    Except RepoError (Store × Incident) :=
  match objectIDFromHex incidentID with
  | none => .error .invalidIdFormat
  | some oid =>
    match findIncidentByOid st oid with
    | none => .error .notFound
    | some inc =>
      let upd := { inc with watchList := addToSet inc.watchList w,
                            updatedAt := st.now }
      .ok ({ st with incidents := updateFirstByOid st.incidents oid (fun _ => upd) },
           upd)

/-- `IncidentRepository.GetNextIncidentKey`: read the highest
`incident_key` (FindOne sorted descending) and add one; `1` when the
collection is empty. -/
def getNextIncidentKey (st : Store) : Int :=
  match st.incidents with
  | [] => 1
  | i :: rest => (rest.foldl (fun m j => max m j.incidentKey) i.incidentKey) + 1

/-- The transition map literal inside
`IncidentService.validateStatusTransition`. -/
def allowedTransitions (current : String) : Option (List String) :=
  if current = Open then some [InProgress, Resolved, Closed]
  else if current = InProgress then some [Open, Resolved, Closed]
  else if current = Resolved then some [Open, InProgress, Closed]
  else if current = Closed then some [Open]
  else none

/-- `IncidentService.validateStatusTransition`: look the current status up
in the transition map and scan the allowed targets. -/
def validateStatusTransition (currentStatus newStatus : String) :
    Except ServiceError Unit :=
  match allowedTransitions currentStatus with
  | some allowed =>
    if allowed.contains newStatus then .ok ()
    else .error (.invalidTransition currentStatus newStatus)
  | none => .error (.invalidTransition currentStatus newStatus)

/-- The note-rebuilding loop in `IncidentService.CreateIncident`: each
request note keeps its content and author email, gets a fresh id and the
current time, and the `Type` field is left at its zero value (the Go
struct literal omits it). -/
def assignNoteIds (startOid now : Nat) : List Note → List Note
  | [] => []
  | n :: rest =>
    { id := startOid, content := n.content, createdAt := now,
      authorEmail := n.authorEmail, type := "" } :: assignNoteIds (startOid + 1) now rest

/-- `IncidentService.CreateIncident`.  `ev` stands for the external
`checkmail.ValidateFormat` collaborator (format-only email check).  Event
emission goes to a stub producer whose `ProduceMessage` always returns
`nil`, so it is not modelled. -/
def createIncident (ev : String → Bool) (st : Store) (req : CreateIncidentRequest) :
    Store × Except ServiceError Incident :=
  if severityIsValid req.severity = false then
    (st, .error (.invalidSeverity req.severity))
  else
    let notes := assignNoteIds st.nextOid st.now req.notes
    let st1 := { st with nextOid := st.nextOid + req.notes.length }
    if goTrim req.authorEmail ≠ "" ∧ ev req.authorEmail = false then
      (st, .error (.invalidEmail req.authorEmail))
    else
      let watcherList : List Watcher :=
        if goTrim req.authorEmail ≠ "" then [{ email := req.authorEmail }] else []
      let nextKey := getNextIncidentKey st1
      let incident : Incident :=
        { id := 0, incidentKey := nextKey, title := req.title,
          severity := req.severity, status := Open, createdAt := 0, updatedAt := 0,
          notes := notes, watchList := watcherList, createdBy := req.authorEmail,
          description := req.description, assignee := req.assignee }
      let res := repoCreate st1 incident
      (res.1, .ok res.2)

/-- `IncidentService.GetByID`: delegate to the repository. -/
def serviceGetByID (st : Store) (id : String) : Except ServiceError Incident :=
  match repoGetByID st id with
  | .error e => (.error (.incidentNotFound e))
  | .ok inc => .ok inc

/-- `IncidentService.AddWatcherToIncident`: existence check through
`repoGetByID`, email format check, then the store write — note that the
store write receives the RAW caller id, not the found incident's hex id. -/
def addWatcherToIncident (ev : String → Bool) (st : Store) (incidentID : String)
    (w : Watcher) : Store × Except ServiceError Incident :=
  match repoGetByID st incidentID with
  | .error e => (st, .error (.incidentNotFound e))
  | .ok _ =>
    if ev w.email = false then (st, .error (.invalidEmail w.email))
    else
      match repoAddWatcherToIncident st incidentID w with
      | .error e => (st, .error (.addWatcherFailed e))
      | .ok r => (r.1, .ok r.2)

/-- `IncidentService.UpdateIncidentStatus`: validate the status value,
fetch the incident, validate the transition, persist through the store
using the found incident's hex id, then (when the author email is
non-blank) chain `AddWatcherToIncident` on the raw caller id; a failure
of the chained call is wrapped in the distinct
`status updated but failed to add watcher` error without rolling the
persisted status back. -/
def updateIncidentStatus (ev : String → Bool) (st : Store) (id : String)
    (req : UpdateIncidentStatusRequest) : Store × Except ServiceError Incident :=
  if statusIsValid req.status = false then (st, .error (.invalidStatus req.status))
  else
    match repoGetByID st id with
    | .error e => (st, .error (.incidentNotFound e))
    | .ok existing =>
      match validateStatusTransition existing.status req.status with
      | .error e => (st, .error e)
      | .ok _ =>
        match repoUpdateStatus st (oidHex existing.id) req.status with
        | .error e => (st, .error (.updateStatusFailed e))
        | .ok r =>
          if goTrim req.authorEmail ≠ "" then
            match addWatcherToIncident ev r.1 id { email := req.authorEmail } with
            | (st2, .error e) => (st2, .error (.statusPartialFailure e))
            | (st2, .ok _) => (st2, .ok r.2)
          else (r.1, .ok r.2)

/-- `IncidentService.UpdateIncidentSeverity`: same shape as the status
update but with no transition rule, and the store write receives the RAW
caller id (not the found incident's hex id). -/
def updateIncidentSeverity (ev : String → Bool) (st : Store) (id : String)
    (req : UpdateIncidentSeverityRequest) : Store × Except ServiceError Incident :=
  if severityIsValid req.severity = false then
    (st, .error (.invalidSeverity req.severity))
  else
    match repoGetByID st id with
    | .error e => (st, .error (.incidentNotFound e))
    | .ok _ =>
      match repoUpdateSeverity st id req.severity with
      | .error e => (st, .error (.updateSeverityFailed e))
      | .ok r =>
        if goTrim req.authorEmail ≠ "" then
          match addWatcherToIncident ev r.1 id { email := req.authorEmail } with
          | (st2, .error e) => (st2, .error (.severityPartialFailure e))
          | (st2, .ok _) => (st2, .ok r.2)
        else (r.1, .ok r.2)

/-- `IncidentService.AddNoteToIncident`: existence check, build the note
from the request (content, author email and type copied verbatim; no
length or enum validation anywhere in the service), store write on the
found incident's hex id. -/
def addNoteToIncident (st : Store) (incidentID : String) (req : AddNoteRequest) :
    Store × Except ServiceError Incident :=
  match repoGetByID st incidentID with
  | .error e => (st, .error (.incidentNotFound e))
  | .ok existing =>
    let note : Note :=
      { id := 0, content := req.content, createdAt := 0,
        authorEmail := req.authorEmail, type := req.type }
    match repoAddNote st (oidHex existing.id) note with
    | .error e => (st, .error (.addNoteFailed e))
    | .ok r => (r.1, .ok r.2)

/-- Errors produced by `handlers.IncidentHandler` before or around the
service call. -/
inductive HandlerError where
  | idRequired
  | titleRequired
  | severityRequired
  | statusRequired
  | contentRequired
  | serviceFailed (e : ServiceError)
deriving DecidableEq, Repr

/-- `IncidentHandler.CreateIncident`: the only request validation is the
pair of empty-string checks on `title` and `severity`; everything else is
passed to the service untouched. -/
def handlerCreateIncident (ev : String → Bool) (st : Store)
    (req : CreateIncidentRequest) : Store × Except HandlerError Incident :=
  if req.title = "" then (st, .error .titleRequired)
  else if req.severity = "" then (st, .error .severityRequired)
  else
    match createIncident ev st req with
    | (st1, .error e) => (st1, .error (.serviceFailed e))
    | (st1, .ok inc) => (st1, .ok inc)

/-- `IncidentHandler.AddNoteToIncident`: the only request validation is
the empty-string check on the id parameter and on `content`. -/
def handlerAddNoteToIncident (st : Store) (id : String) (req : AddNoteRequest) :
    Store × Except HandlerError Incident :=
  if id = "" then (st, .error .idRequired)
  else if req.content = "" then (st, .error .contentRequired)
  else
    match addNoteToIncident st id req with
    | (st1, .error e) => (st1, .error (.serviceFailed e))
    | (st1, .ok inc) => (st1, .ok inc)

/-- The transition table exactly as the specification writes it in §4.1,
as a list of (from, to) rows.  This definition is transcribed from the
SPEC (not from the code) so that the code's transition check can be
compared against it. -/
def specTransitionTable : List (String × String) :=
  [(Open, InProgress), (Open, Resolved), (Open, Closed),
   (InProgress, Open), (InProgress, Resolved), (InProgress, Closed),
   (Resolved, Open), (Resolved, InProgress), (Resolved, Closed),
   (Closed, Open)]

/-- The store after `repoUpdateStatus` persisted `status` on `existing`. -/
def afterStatusWrite (st : Store) (existing : Incident) (status : String) : Store :=
  { st with
    incidents :=
      updateFirstByOid st.incidents existing.id
        (fun _ => { existing with status := status, updatedAt := st.now }) }

/-- Sample fixture: one stored incident with key 1 and storage id 10
(its hex rendering therefore contains a letter). -/
def sampleInc : Incident :=
  { id := 10, incidentKey := 1, title := "Database Connection Failed",
    severity := Critical, status := Open, createdAt := 0, updatedAt := 0,
    notes := [], watchList := [], createdBy := "", description := "",
    assignee := "" }

/-- Sample fixture: a store holding just `sampleInc`. -/
def sampleStore : Store := { incidents := [sampleInc], nextOid := 11, now := 7 }

/-- Fixture: the watcher used in the C9 witness. -/
def w9 : Watcher := { email := "a@b.com" }

/-- Fixture: `sampleInc` after the watcher `w9` has been added once. -/
def C9i1 : Incident :=
  { sampleInc with watchList := [w9], updatedAt := sampleStore.now }

/-- Fixture: `sampleStore` after the watcher `w9` has been added once. -/
def C9st1 : Store := { sampleStore with incidents := [C9i1] }

/-- The incident `CreateIncident` hands to the store, after the store has
stamped it (fresh id, both timestamps set to the single `now` reading). -/
def createdIncident (st : Store) (req : CreateIncidentRequest) : Incident :=
  { id := st.nextOid + req.notes.length,
    incidentKey := getNextIncidentKey st,
    title := req.title, severity := req.severity, status := Open,
    createdAt := st.now, updatedAt := st.now,
    notes := assignNoteIds st.nextOid st.now req.notes,
    watchList :=
      if goTrim req.authorEmail ≠ "" then [{ email := req.authorEmail }] else [],
    createdBy := req.authorEmail, description := req.description,
    assignee := req.assignee }

/-- Fixture: an empty store whose clock reads 3. -/
def emptyStore : Store := { incidents := [], nextOid := 0, now := 3 }

/-- Fixture: the incident produced by `sampleReq` on `emptyStore`. -/
def sampleCreated : Incident :=
  { id := 1, incidentKey := 1, title := "Database Connection Failed",
    severity := "critical", status := "open", createdAt := 3, updatedAt := 3,
    notes := [{ id := 0, content := "first look", createdAt := 3,
                authorEmail := "a@b.com", type := "" }],
    watchList := [{ email := "a@b.com" }], createdBy := "a@b.com",
    description := "", assignee := "" }

/-- Fixture: the store after `sampleReq` was created on `emptyStore`. -/
def sampleCreatedStore : Store :=
  { incidents := [sampleCreated], nextOid := 2, now := 3 }

/-- Note-type constant `models.Investigation`. -/
def Investigation : String := "investigation"

/-- Note-type constant `models.Resolution`. -/
def Resolution : String := "resolution"

/-- Note-type constant `models.Communication`. -/
def Communication : String := "communication"

/-- Fixture: a note content of 1001 characters. -/
def longContent : String := String.mk (List.replicate 1001 'x')

theorem hexDigitChar_isHex : ∀ m, m < 16 → isHexDigitB (hexDigitChar m) = true := by
  decide

theorem hexDigitVal_hexDigitChar : ∀ m, m < 16 → hexDigitVal (hexDigitChar m) = m := by
  decide

theorem toHexList_length (w : Nat) : ∀ n, (toHexList w n).length = w := by
  induction w with
  | zero => intro n; rfl
  | succ w ih => intro n; simp [toHexList, ih]

theorem toHexList_all_hex (w : Nat) :
    ∀ n c, c ∈ toHexList w n → isHexDigitB c = true := by
  induction w with
  | zero => intro n c hc; simp [toHexList] at hc
  | succ w ih =>
    intro n c hc
    simp only [toHexList, List.mem_append, List.mem_singleton] at hc
    rcases hc with hc | rfl
    · exact ih _ _ hc
    · exact hexDigitChar_isHex _ (Nat.mod_lt _ (by norm_num))

theorem toHexList_foldl (w : Nat) : ∀ n a, n < 16 ^ w →
    (toHexList w n).foldl (fun x c => 16 * x + hexDigitVal c) a = a * 16 ^ w + n := by
  induction w with
  | zero =>
    intro n a h
    simp only [pow_zero, Nat.lt_one_iff] at h
    subst h
    simp [toHexList]
  | succ w ih =>
    intro n a h
    have hdiv : n / 16 < 16 ^ w := by
      rw [Nat.div_lt_iff_lt_mul (by norm_num : (0:Nat) < 16)]
      calc n < 16 ^ (w + 1) := h
        _ = 16 ^ w * 16 := by ring
    simp only [toHexList, List.foldl_append, List.foldl_cons, List.foldl_nil]
    rw [ih (n / 16) a hdiv,
        hexDigitVal_hexDigitChar _ (Nat.mod_lt _ (by norm_num))]
    have hmod := Nat.div_add_mod n 16
    have : a * 16 ^ (w + 1) = a * 16 ^ w * 16 := by ring
    omega

theorem objectIDFromHex_oidHex (n : Nat) (h : n < 16 ^ 24) :
    objectIDFromHex (oidHex n) = some n := by
  have hlen : (toHexList 24 n).length = 24 := toHexList_length 24 n
  have hall : (toHexList 24 n).all isHexDigitB = true := by
    rw [List.all_eq_true]
    intro c hc
    exact toHexList_all_hex 24 n c hc
  have hdata : (oidHex n).data = toHexList 24 n := rfl
  unfold objectIDFromHex
  rw [hdata, if_pos ⟨hlen, hall⟩, toHexList_foldl 24 n 0 h]
  simp

theorem find?_updateFirstByOid_const (l : List Incident) (oid : Nat) (upd : Incident)
    (hupd : upd.id = oid) :
    (updateFirstByOid l oid (fun _ => upd)).find? (fun i => i.id = oid) =
      (l.find? (fun i => i.id = oid)).map (fun _ => upd) := by
  induction l with
  | nil => rfl
  | cons i rest ih =>
    by_cases hid : i.id = oid
    · simp [updateFirstByOid, hid, List.find?_cons_of_pos, hupd]
    · simp only [updateFirstByOid, if_neg hid]
      rw [List.find?_cons_of_neg _ (by simp [hid]),
          List.find?_cons_of_neg _ (by simp [hid]), ih]

theorem find?_of_nodup_ids (l : List Incident) (a : Incident)
    (hnd : (l.map (fun i => i.id)).Nodup) (hmem : a ∈ l) :
    l.find? (fun i => i.id = a.id) = some a := by
  induction l with
  | nil => simp at hmem
  | cons i rest ih =>
    rw [List.map_cons, List.nodup_cons] at hnd
    rcases List.mem_cons.mp hmem with rfl | hmem'
    · exact List.find?_cons_of_pos _ (by simp)
    · have hne : i.id ≠ a.id := by
        intro he
        exact hnd.1 (he ▸ List.mem_map_of_mem (fun j => j.id) hmem')
      rw [List.find?_cons_of_neg _ (by simp [hne]), ih hnd.2 hmem']

theorem findIncidentByOid_of_nodup (st : Store) (a : Incident)
    (hnd : (st.incidents.map (fun i => i.id)).Nodup) (hmem : a ∈ st.incidents) :
    findIncidentByOid st a.id = some a :=
  find?_of_nodup_ids st.incidents a hnd hmem

theorem findIncidentByKey_prop (st : Store) (k : Int) (inc : Incident)
    (h : findIncidentByKey st k = some inc) :
    inc ∈ st.incidents ∧ inc.incidentKey = k := by
  refine ⟨List.mem_of_find?_eq_some h, ?_⟩
  have := List.find?_some h
  simpa using this

theorem findIncidentByOid_prop (st : Store) (oid : Nat) (inc : Incident)
    (h : findIncidentByOid st oid = some inc) :
    inc ∈ st.incidents ∧ inc.id = oid := by
  refine ⟨List.mem_of_find?_eq_some h, ?_⟩
  have := List.find?_some h
  simpa using this

theorem le_foldl_maxKey (l : List Incident) : ∀ b : Int,
    b ≤ l.foldl (fun m j => max m j.incidentKey) b := by
  induction l with
  | nil => intro b; simp
  | cons i rest ih =>
    intro b
    calc b ≤ max b i.incidentKey := le_max_left _ _
      _ ≤ rest.foldl (fun m j => max m j.incidentKey) (max b i.incidentKey) := ih _

theorem mem_le_foldl_maxKey (l : List Incident) : ∀ (b : Int) (j : Incident), j ∈ l →
    j.incidentKey ≤ l.foldl (fun m j => max m j.incidentKey) b := by
  induction l with
  | nil => intro b j hj; simp at hj
  | cons i rest ih =>
    intro b j hj
    rcases List.mem_cons.mp hj with rfl | hj'
    · calc j.incidentKey ≤ max b j.incidentKey := le_max_right _ _
        _ ≤ rest.foldl (fun m j => max m j.incidentKey) (max b j.incidentKey) :=
          le_foldl_maxKey rest _
    · exact ih _ j hj'

theorem foldl_maxKey_attained (l : List Incident) : ∀ b : Int,
    l.foldl (fun m j => max m j.incidentKey) b = b ∨
      ∃ j ∈ l, l.foldl (fun m j => max m j.incidentKey) b = j.incidentKey := by
  induction l with
  | nil => intro b; left; rfl
  | cons i rest ih =>
    intro b
    rcases ih (max b i.incidentKey) with h | ⟨j, hj, hje⟩
    · simp only [List.foldl_cons]
      rcases max_choice b i.incidentKey with hm | hm
      · left; rw [h, hm]
      · right; exact ⟨i, List.mem_cons_self i rest, by rw [h, hm]⟩
    · right
      exact ⟨j, List.mem_cons_of_mem i hj, by simpa using hje⟩

theorem mem_lt_getNextIncidentKey (st : Store) (j : Incident)
    (hj : j ∈ st.incidents) : j.incidentKey < getNextIncidentKey st := by
  unfold getNextIncidentKey
  cases hst : st.incidents with
  | nil => rw [hst] at hj; simp at hj
  | cons i rest =>
    rw [hst] at hj
    have hred : (match i :: rest with
        | [] => (1 : Int)
        | i :: rest => (rest.foldl (fun m j => max m j.incidentKey) i.incidentKey) + 1) =
        (rest.foldl (fun m j => max m j.incidentKey) i.incidentKey) + 1 := rfl
    rw [hred]
    have : j.incidentKey ≤ rest.foldl (fun m j => max m j.incidentKey) i.incidentKey := by
      rcases List.mem_cons.mp hj with rfl | hj'
      · exact le_foldl_maxKey rest _
      · exact mem_le_foldl_maxKey rest _ j hj'
    omega

theorem getNextIncidentKey_attained (st : Store) (hne : st.incidents ≠ []) :
    ∃ j ∈ st.incidents, getNextIncidentKey st = j.incidentKey + 1 := by
  unfold getNextIncidentKey
  cases hst : st.incidents with
  | nil => exact absurd hst hne
  | cons i rest =>
    have hred : (match i :: rest with
        | [] => (1 : Int)
        | i :: rest => (rest.foldl (fun m j => max m j.incidentKey) i.incidentKey) + 1) =
        (rest.foldl (fun m j => max m j.incidentKey) i.incidentKey) + 1 := rfl
    rw [hred]
    rcases foldl_maxKey_attained rest i.incidentKey with h | ⟨j, hj, hje⟩
    · exact ⟨i, List.mem_cons_self i rest, by rw [h]⟩
    · exact ⟨j, List.mem_cons_of_mem i hj, by rw [hje]⟩

theorem addToSet_mem (l : List Watcher) (w : Watcher) : w ∈ addToSet l w := by
  unfold addToSet
  by_cases h : w ∈ l
  · simp [h]
  · simp [h]

theorem addToSet_of_mem (l : List Watcher) (w : Watcher)
    (h : w ∈ l) : addToSet l w = l := by
  simp [addToSet, h]

theorem count_addToSet_of_not_mem (l : List Watcher) (w : Watcher)
    (h : ¬ w ∈ l) : (addToSet l w).count w = l.count w + 1 := by
  simp [addToSet, h, List.count_append]

theorem assignNoteIds_length (startOid now : Nat) (ns : List Note) :
    (assignNoteIds startOid now ns).length = ns.length := by
  induction ns generalizing startOid with
  | nil => rfl
  | cons n rest ih => simp [assignNoteIds, ih]

theorem assignNoteIds_getD (now : Nat) (ns : List Note) :
    ∀ (startOid i : Nat), i < ns.length → ∀ d d' : Note,
    (assignNoteIds startOid now ns).getD i d =
      { id := startOid + i, content := (ns.getD i d').content, createdAt := now,
        authorEmail := (ns.getD i d').authorEmail, type := "" } := by
  induction ns with
  | nil => intro startOid i hi; simp at hi
  | cons n rest ih =>
    intro startOid i hi d d'
    match i with
    | 0 => rfl
    | i + 1 =>
      simp only [assignNoteIds, List.getD_cons_succ]
      rw [ih (startOid + 1) i (by simpa using hi) d d']
      congr 1
      omega

theorem vst_ok_iff (src dst : String) :
    validateStatusTransition src dst = .ok () ↔ (src, dst) ∈ specTransitionTable := by
  unfold validateStatusTransition allowedTransitions specTransitionTable
  by_cases h1 : src = Open
  · subst h1
    simp [Open, InProgress, Resolved, Closed, ite_eq_iff]
    tauto
  · by_cases h2 : src = InProgress
    · subst h2
      simp [Open, InProgress, Resolved, Closed, ite_eq_iff, h1]
      tauto
    · by_cases h3 : src = Resolved
      · subst h3
        simp [Open, InProgress, Resolved, Closed, ite_eq_iff, h1, h2]
        tauto
      · by_cases h4 : src = Closed
        · subst h4
          simp [Open, InProgress, Resolved, Closed, ite_eq_iff, h1, h2, h3]
        · simp only [Open, InProgress, Resolved, Closed] at h1 h2 h3 h4 ⊢
          simp [h1, h2, h3, h4]

theorem vst_err_of_not_mem (src dst : String)
    (h : (src, dst) ∉ specTransitionTable) :
    validateStatusTransition src dst = .error (.invalidTransition src dst) := by
  rcases hv : validateStatusTransition src dst with e | u
  · unfold validateStatusTransition at hv
    rcases hm : allowedTransitions src with _ | allowed <;> rw [hm] at hv
    · have he : ServiceError.invalidTransition src dst = e := by simpa using hv
      rw [← he]
    · by_cases hc : dst ∈ allowed
      · simp [hc] at hv
      · have he : ServiceError.invalidTransition src dst = e := by simpa [hc] using hv
        rw [← he]
  · exact absurd ((vst_ok_iff src dst).mp (by rw [hv])) h

theorem repoGetByID_ok_inv (st : Store) (id : String) (inc : Incident)
    (h : repoGetByID st id = .ok inc) :
    ∃ k, atoi id = some k ∧ findIncidentByKey st k = some inc := by
  unfold repoGetByID at h
  rcases ha : atoi id with _ | k <;> simp only [ha] at h
  · exact absurd h (by simp)
  · rcases hf : findIncidentByKey st k with _ | i <;> simp only [hf] at h
    · exact absurd h (by simp)
    · simp only [Except.ok.injEq] at h
      exact ⟨k, rfl, by rw [hf, h]⟩

theorem repoGetByID_ok_mem (st : Store) (id : String) (inc : Incident)
    (h : repoGetByID st id = .ok inc) : inc ∈ st.incidents := by
  obtain ⟨k, _, hf⟩ := repoGetByID_ok_inv st id inc h
  exact (findIncidentByKey_prop st k inc hf).1

theorem repoUpdateStatus_hex (st : Store) (existing : Incident) (status : String)
    (hnd : (st.incidents.map (fun i => i.id)).Nodup)
    (hmem : existing ∈ st.incidents) (hlt : existing.id < 16 ^ 24) :
    repoUpdateStatus st (oidHex existing.id) status =
      .ok (afterStatusWrite st existing status,
           { existing with status := status, updatedAt := st.now }) := by
  unfold repoUpdateStatus afterStatusWrite
  rw [objectIDFromHex_oidHex existing.id hlt]
  simp only [findIncidentByOid_of_nodup st existing hnd hmem]

theorem updateIncidentStatus_ok (ev : String → Bool) (st : Store) (id : String)
    (req : UpdateIncidentStatusRequest) (existing : Incident)
    (hdst : statusIsValid req.status = true)
    (hget : repoGetByID st id = .ok existing)
    (htrans : (existing.status, req.status) ∈ specTransitionTable)
    (hnd : (st.incidents.map (fun i => i.id)).Nodup)
    (hbound : ∀ j ∈ st.incidents, j.id < 16 ^ 24)
    (hmail : req.authorEmail = "") :
    updateIncidentStatus ev st id req =
      (afterStatusWrite st existing req.status,
       .ok { existing with status := req.status, updatedAt := st.now }) := by
  have hmem := repoGetByID_ok_mem st id existing hget
  have hlt := hbound existing hmem
  have hvst : validateStatusTransition existing.status req.status = .ok () :=
    (vst_ok_iff _ _).mpr htrans
  unfold updateIncidentStatus
  rw [if_neg (by simp [hdst])]
  simp only [hget, hvst, repoUpdateStatus_hex st existing req.status hnd hmem hlt,
    hmail]
  rw [if_neg (by simp [goTrim])]

theorem updateIncidentStatus_err_transition (ev : String → Bool) (st : Store)
    (id : String) (req : UpdateIncidentStatusRequest) (existing : Incident)
    (hdst : statusIsValid req.status = true)
    (hget : repoGetByID st id = .ok existing)
    (htrans : (existing.status, req.status) ∉ specTransitionTable) :
    updateIncidentStatus ev st id req =
      (st, .error (.invalidTransition existing.status req.status)) := by
  unfold updateIncidentStatus
  rw [if_neg (by simp [hdst])]
  simp only [hget, vst_err_of_not_mem _ _ htrans]

/-- C1: for an incident whose current status and requested status are both
members of the status enum, UpdateStatus succeeds exactly when the
(from, to) pair is a row of the transition table of the spec, and for
every pair not listed (including self-transitions) it fails with the
invalid-transition error and leaves the store untouched. -/
theorem C1_transition_table_governs_updateStatus
    (ev : String → Bool) (st : Store) (id : String)
    (req : UpdateIncidentStatusRequest) (existing : Incident)
    (hget : repoGetByID st id = .ok existing)
    (hnd : (st.incidents.map (fun i => i.id)).Nodup)
    (hbound : ∀ j ∈ st.incidents, j.id < 16 ^ 24)
    (_hsrc : statusIsValid existing.status = true)
    (hdst : statusIsValid req.status = true)
    (hmail : req.authorEmail = "") :
    ((updateIncidentStatus ev st id req).2.isOk = true ↔
        (existing.status, req.status) ∈ specTransitionTable) ∧
      ((existing.status, req.status) ∉ specTransitionTable →
        updateIncidentStatus ev st id req =
          (st, .error (.invalidTransition existing.status req.status))) := by
  constructor
  · constructor
    · intro hok
      by_contra hnot
      rw [updateIncidentStatus_err_transition ev st id req existing hdst hget hnot]
        at hok
      simp [Except.isOk, Except.toBool] at hok
    · intro hmem
      rw [updateIncidentStatus_ok ev st id req existing hdst hget hmem hnd hbound
        hmail]
      rfl
  · intro hnot
    exact updateIncidentStatus_err_transition ev st id req existing hdst hget hnot

/-- Witness for C1 at a concrete store, incident and request. -/
theorem C1_transition_table_governs_updateStatus_witness :
    (((updateIncidentStatus (fun _ => true) sampleStore "1"
          { status := InProgress, authorEmail := "" }).2.isOk = true ↔
        (sampleInc.status, InProgress) ∈ specTransitionTable) ∧
      ((sampleInc.status, InProgress) ∉ specTransitionTable →
        updateIncidentStatus (fun _ => true) sampleStore "1"
            { status := InProgress, authorEmail := "" } =
          (sampleStore, .error (.invalidTransition sampleInc.status InProgress)))) :=
  C1_transition_table_governs_updateStatus (fun _ => true) sampleStore "1"
    { status := InProgress, authorEmail := "" } sampleInc (by rfl) (by decide)
    (by decide) (by rfl) (by rfl) rfl

theorem addWatcher_error_state (ev : String → Bool) (st : Store) (id : String)
    (w : Watcher) (st2 : Store) (e : ServiceError)
    (h : addWatcherToIncident ev st id w = (st2, .error e)) : st2 = st := by
  unfold addWatcherToIncident at h
  split at h
  · injection h with h1 h2; exact h1.symm
  · split at h
    · injection h with h1 h2; exact h1.symm
    · split at h
      · injection h with h1 h2; exact h1.symm
      · injection h with h1 h2; exact Except.noConfusion h2

theorem afterStatusWrite_find (st : Store) (existing : Incident) (status : String)
    (hnd : (st.incidents.map (fun i => i.id)).Nodup)
    (hmem : existing ∈ st.incidents) :
    findIncidentByOid (afterStatusWrite st existing status) existing.id =
      some { existing with status := status, updatedAt := st.now } := by
  have hfold : findIncidentByOid (afterStatusWrite st existing status) existing.id =
      (updateFirstByOid st.incidents existing.id
        (fun _ => { existing with status := status, updatedAt := st.now })).find?
        (fun i => i.id = existing.id) := rfl
  rw [hfold, find?_updateFirstByOid_const st.incidents existing.id
        { existing with status := status, updatedAt := st.now } rfl,
      find?_of_nodup_ids st.incidents existing hnd hmem]
  rfl

/-- C8: when UpdateStatus has persisted the new status and its chained
watcher add then fails, the call returns the distinct
status-partial-failure error, the final store is exactly the
post-status-write store (no rollback), and the addressed incident still
carries the new status there. -/
theorem C8_partial_failure_keeps_status
    (ev : String → Bool) (st : Store) (id : String)
    (req : UpdateIncidentStatusRequest) (existing : Incident) (st2 : Store)
    (e : ServiceError)
    (hget : repoGetByID st id = .ok existing)
    (hnd : (st.incidents.map (fun i => i.id)).Nodup)
    (hbound : ∀ j ∈ st.incidents, j.id < 16 ^ 24)
    (hdst : statusIsValid req.status = true)
    (htrans : (existing.status, req.status) ∈ specTransitionTable)
    (hmail : goTrim req.authorEmail ≠ "")
    (hwfail : addWatcherToIncident ev (afterStatusWrite st existing req.status) id
        { email := req.authorEmail } = (st2, .error e)) :
    updateIncidentStatus ev st id req =
        (afterStatusWrite st existing req.status,
         .error (.statusPartialFailure e)) ∧
      findIncidentByOid (afterStatusWrite st existing req.status) existing.id =
        some { existing with status := req.status, updatedAt := st.now } := by
  have hmem := repoGetByID_ok_mem st id existing hget
  have hlt := hbound existing hmem
  have hvst : validateStatusTransition existing.status req.status = .ok () :=
    (vst_ok_iff _ _).mpr htrans
  have hst2 : st2 = afterStatusWrite st existing req.status :=
    addWatcher_error_state ev _ id _ st2 e hwfail
  constructor
  · unfold updateIncidentStatus
    rw [if_neg (by simp [hdst])]
    simp only [hget, hvst,
      repoUpdateStatus_hex st existing req.status hnd hmem hlt, if_pos hmail,
      hwfail]
    rw [hst2]
  · exact afterStatusWrite_find st existing req.status hnd hmem

/-- Witness for C8 at a concrete store: the watcher add fails because the
raw caller id "1" is not a 24-character hex ObjectID. -/
theorem C8_partial_failure_keeps_status_witness :
    (updateIncidentStatus (fun _ => true) sampleStore "1"
          { status := InProgress, authorEmail := "a@b.com" } =
        (afterStatusWrite sampleStore sampleInc InProgress,
         .error (.statusPartialFailure (.addWatcherFailed .invalidIdFormat))) ∧
      findIncidentByOid (afterStatusWrite sampleStore sampleInc InProgress)
          sampleInc.id =
        some { sampleInc with
               status := InProgress, updatedAt := sampleStore.now }) :=
  C8_partial_failure_keeps_status (fun _ => true) sampleStore "1"
    { status := InProgress, authorEmail := "a@b.com" } sampleInc
    (afterStatusWrite sampleStore sampleInc InProgress)
    (.addWatcherFailed .invalidIdFormat) (by rfl) (by decide) (by decide)
    (by rfl) (by decide) (by decide) (by rfl)

/-- Counterexample for C5: the incident stored under key 1 with storage id
10 is fetched fine by its key, but fetching it by its 24-hex storage id
string fails, because GetByID parses the caller id with `strconv.Atoi`. -/
theorem C5_fetch_by_storage_id_fails :
    serviceGetByID sampleStore "1" = .ok sampleInc ∧
    oidHex sampleInc.id = "00000000000000000000000a" ∧
    serviceGetByID sampleStore (oidHex sampleInc.id) =
      .error (.incidentNotFound .invalidIdFormat) :=
  ⟨rfl, rfl, rfl⟩

/-- C5 (amended): caller-facing lookup resolves only through the integer
incident key, and the status mutation resolves the caller id through that
same fetch and then addresses the store write by the resolved incident's
storage id. -/
theorem C5_lookup_by_incident_key
    (ev : String → Bool) (st : Store) (id : String)
    (req : UpdateIncidentStatusRequest) (existing : Incident)
    (hget : repoGetByID st id = .ok existing)
    (hnd : (st.incidents.map (fun i => i.id)).Nodup)
    (hbound : ∀ j ∈ st.incidents, j.id < 16 ^ 24)
    (hdst : statusIsValid req.status = true)
    (htrans : (existing.status, req.status) ∈ specTransitionTable)
    (hmail : req.authorEmail = "") :
    (∃ k, atoi id = some k ∧ existing.incidentKey = k ∧ existing ∈ st.incidents) ∧
      updateIncidentStatus ev st id req =
        (afterStatusWrite st existing req.status,
         .ok { existing with status := req.status, updatedAt := st.now }) ∧
      findIncidentByOid (afterStatusWrite st existing req.status) existing.id =
        some { existing with status := req.status, updatedAt := st.now } := by
  have hmem := repoGetByID_ok_mem st id existing hget
  refine ⟨?_, ?_, ?_⟩
  · obtain ⟨k, ha, hf⟩ := repoGetByID_ok_inv st id existing hget
    exact ⟨k, ha, (findIncidentByKey_prop st k existing hf).2, hmem⟩
  · exact updateIncidentStatus_ok ev st id req existing hdst hget htrans hnd
      hbound hmail
  · exact afterStatusWrite_find st existing req.status hnd hmem

/-- Witness for the amended C5 at a concrete store and request. -/
theorem C5_lookup_by_incident_key_witness :
    ((∃ k, atoi "1" = some k ∧ sampleInc.incidentKey = k ∧
        sampleInc ∈ sampleStore.incidents) ∧
      updateIncidentStatus (fun _ => true) sampleStore "1"
          { status := Resolved, authorEmail := "" } =
        (afterStatusWrite sampleStore sampleInc Resolved,
         .ok { sampleInc with
               status := Resolved, updatedAt := sampleStore.now }) ∧
      findIncidentByOid (afterStatusWrite sampleStore sampleInc Resolved)
          sampleInc.id =
        some { sampleInc with
               status := Resolved, updatedAt := sampleStore.now }) :=
  C5_lookup_by_incident_key (fun _ => true) sampleStore "1"
    { status := Resolved, authorEmail := "" } sampleInc (by rfl) (by decide)
    (by decide) (by rfl) (by decide) rfl

/-- Counterexample for C6: a 24-digit decimal string with leading zeros is
accepted by BOTH the decimal existence-check parse and the 24-hex
storage-id parse. -/
theorem C6_padded_decimal_satisfies_both_parses :
    atoi "000000000000000000000001" = some 1 ∧
    objectIDFromHex "000000000000000000000001" = some 1 :=
  ⟨rfl, rfl⟩

theorem objectIDFromHex_len_ne (s : String) (h : s.length ≠ 24) :
    objectIDFromHex s = none := by
  unfold objectIDFromHex
  rw [if_neg]
  intro hc
  exact h hc.1

/-- C6 (amended): any caller id accepted by the decimal existence check
whose length is not 24 is rejected by the hex parse, so the raw-id store
writes of UpdateSeverity and AddWatcher fail with the id-format error
even though the existence check just succeeded. -/
theorem C6_key_ids_fail_raw_store_writes
    (ev : String → Bool) (st : Store) (id : String)
    (req : UpdateIncidentSeverityRequest) (w : Watcher) (existing : Incident)
    (hget : repoGetByID st id = .ok existing)
    (hlen : id.length ≠ 24)
    (hsev : severityIsValid req.severity = true)
    (hev : ev w.email = true) :
    updateIncidentSeverity ev st id req =
        (st, .error (.updateSeverityFailed .invalidIdFormat)) ∧
      addWatcherToIncident ev st id w =
        (st, .error (.addWatcherFailed .invalidIdFormat)) := by
  have hhex := objectIDFromHex_len_ne id hlen
  constructor
  · unfold updateIncidentSeverity repoUpdateSeverity
    rw [if_neg (by simp [hsev])]
    simp only [hget, hhex]
  · unfold addWatcherToIncident repoAddWatcherToIncident
    simp only [hget, hhex]
    rw [if_neg (by simp [hev])]

/-- Witness for the amended C6 at a concrete store, request and watcher. -/
theorem C6_key_ids_fail_raw_store_writes_witness :
    (updateIncidentSeverity (fun _ => true) sampleStore "1"
          { severity := High, authorEmail := "" } =
        (sampleStore, .error (.updateSeverityFailed .invalidIdFormat)) ∧
      addWatcherToIncident (fun _ => true) sampleStore "1"
          { email := "x@y.zz" } =
        (sampleStore, .error (.addWatcherFailed .invalidIdFormat))) :=
  C6_key_ids_fail_raw_store_writes (fun _ => true) sampleStore "1"
    { severity := High, authorEmail := "" } { email := "x@y.zz" } sampleInc
    (by rfl) (by decide) (by rfl) (by rfl)

theorem repoAddWatcher_ok_inv (st : Store) (id : String) (w : Watcher)
    (st1 : Store) (i1 : Incident)
    (h : repoAddWatcherToIncident st id w = .ok (st1, i1)) :
    ∃ oid inc, objectIDFromHex id = some oid ∧
      findIncidentByOid st oid = some inc ∧
      i1 = { inc with
             watchList := addToSet inc.watchList w, updatedAt := st.now } ∧
      st1 = { st with
              incidents := updateFirstByOid st.incidents oid (fun _ => i1) } := by
  unfold repoAddWatcherToIncident at h
  rcases hx : objectIDFromHex id with _ | oid <;> simp only [hx] at h
  · exact absurd h (by simp)
  · rcases hf : findIncidentByOid st oid with _ | inc <;> simp only [hf] at h
    · exact absurd h (by simp)
    · simp only [Except.ok.injEq, Prod.mk.injEq] at h
      exact ⟨oid, inc, rfl, hf, h.2.symm, by rw [← h.1, ← h.2]⟩

/-- C9: at the store level, adding the same watcher twice leaves the
watch list of the addressed incident containing that watcher exactly
once, given the store invariant that watch lists hold no duplicates. -/
theorem C9_addWatcher_idempotent (st : Store) (id : String) (w : Watcher)
    (st1 st2 : Store) (i1 i2 : Incident)
    (hset : ∀ j ∈ st.incidents, j.watchList.count w ≤ 1)
    (h1 : repoAddWatcherToIncident st id w = .ok (st1, i1))
    (h2 : repoAddWatcherToIncident st1 id w = .ok (st2, i2)) :
    i2.watchList.count w = 1 ∧ i2.watchList = i1.watchList := by
  obtain ⟨oid, inc, hx, hf, hi1, hst1⟩ := repoAddWatcher_ok_inv st id w st1 i1 h1
  obtain ⟨oid', inc', hx', hf', hi2, _⟩ := repoAddWatcher_ok_inv st1 id w st2 i2 h2
  have hoid : oid = oid' := by
    rw [hx] at hx'
    injection hx' with h
  subst hoid
  obtain ⟨hmem, hincid⟩ := findIncidentByOid_prop st oid inc hf
  have hfind1 : findIncidentByOid st1 oid = some i1 := by
    have hfold : findIncidentByOid st1 oid =
        (updateFirstByOid st.incidents oid (fun _ => i1)).find?
          (fun i => i.id = oid) := by rw [hst1]; rfl
    have hi1id : i1.id = oid := by rw [hi1]; exact hincid
    rw [hfold, find?_updateFirstByOid_const st.incidents oid i1 hi1id]
    unfold findIncidentByOid at hf
    rw [hf]
    rfl
  have hinc' : i1 = inc' := by
    rw [hfind1] at hf'
    injection hf' with h
  subst hinc'
  have hw1 : w ∈ i1.watchList := by rw [hi1]; exact addToSet_mem _ _
  have hlist2 : i2.watchList = i1.watchList := by
    rw [hi2]
    simp only [addToSet_of_mem _ _ hw1]
  refine ⟨?_, hlist2⟩
  rw [hlist2, hi1]
  by_cases hwmem : w ∈ inc.watchList
  · rw [addToSet_of_mem _ _ hwmem]
    have hle := hset inc hmem
    have hpos : 0 < inc.watchList.count w := List.count_pos_iff.mpr hwmem
    exact Nat.le_antisymm hle hpos
  · rw [count_addToSet_of_not_mem _ _ hwmem, List.count_eq_zero.mpr hwmem]

/-- Witness for C9: adding the same watcher twice on the concrete store
yields a watch list holding it exactly once. -/
theorem C9_addWatcher_idempotent_witness :
    C9i1.watchList.count w9 = 1 ∧ C9i1.watchList = C9i1.watchList :=
  C9_addWatcher_idempotent sampleStore (oidHex 10) w9 C9st1 C9st1 C9i1 C9i1
    (by decide) (by rfl) (by rfl)

theorem createIncident_ok_inv (ev : String → Bool) (st : Store)
    (req : CreateIncidentRequest) (st' : Store) (inc : Incident)
    (h : createIncident ev st req = (st', .ok inc)) :
    inc = createdIncident st req ∧
      st' = { st with
              incidents := st.incidents ++ [inc],
              nextOid := st.nextOid + req.notes.length + 1 } := by
  unfold createIncident repoCreate at h
  split at h
  · exact absurd h (by simp)
  · split at h
    · exact absurd h (by simp)
    · injection h with h1 h2
      injection h2 with h2
      constructor
      · rw [← h2]; rfl
      · rw [← h1, ← h2]

/-- C2: every successful creation yields an incident whose status is
`open`, whose `createdAt` equals `updatedAt`, whose incident key is the
store's next key (strictly above every stored key), and whose storage id
is fresh with respect to every id already in the store. -/
theorem C2_create_defaults (ev : String → Bool) (st : Store)
    (req : CreateIncidentRequest) (st' : Store) (inc : Incident)
    (h : createIncident ev st req = (st', .ok inc)) :
    inc.status = Open ∧ inc.createdAt = inc.updatedAt ∧
      inc.incidentKey = getNextIncidentKey st ∧
      (∀ j ∈ st.incidents, j.incidentKey < inc.incidentKey) ∧
      ((∀ j ∈ st.incidents, j.id < st.nextOid) →
        ∀ j ∈ st.incidents, j.id ≠ inc.id) := by
  obtain ⟨hinc, _⟩ := createIncident_ok_inv ev st req st' inc h
  subst hinc
  refine ⟨rfl, rfl, rfl, ?_, ?_⟩
  · intro j hj
    exact mem_lt_getNextIncidentKey st j hj
  · intro hb j hj he
    have := hb j hj
    have hid : (createdIncident st req).id = st.nextOid + req.notes.length := rfl
    omega

/-- C7: the key assigned by a successful creation is the store's next
incident key: `1` on an empty store, and one plus the highest stored key
otherwise (in particular strictly above every stored key). -/
theorem C7_next_incident_key (ev : String → Bool) (st : Store)
    (req : CreateIncidentRequest) (st' : Store) (inc : Incident)
    (h : createIncident ev st req = (st', .ok inc)) :
    inc.incidentKey = getNextIncidentKey st ∧
      (st.incidents = [] → inc.incidentKey = 1) ∧
      (∀ j ∈ st.incidents, j.incidentKey < inc.incidentKey) ∧
      (st.incidents ≠ [] →
        ∃ j ∈ st.incidents, inc.incidentKey = j.incidentKey + 1) := by
  obtain ⟨hinc, _⟩ := createIncident_ok_inv ev st req st' inc h
  subst hinc
  refine ⟨rfl, ?_, ?_, ?_⟩
  · intro he
    have : getNextIncidentKey st = 1 := by unfold getNextIncidentKey; rw [he]
    exact this
  · intro j hj
    exact mem_lt_getNextIncidentKey st j hj
  · intro hne
    exact getNextIncidentKey_attained st hne

/-- C10: each note supplied at creation keeps its content and author
email, gets a fresh id and the creation clock as timestamp, and its type
field is reset to the empty string regardless of the requested type. -/
theorem C10_creation_notes_lose_type (ev : String → Bool) (st : Store)
    (req : CreateIncidentRequest) (st' : Store) (inc : Incident)
    (h : createIncident ev st req = (st', .ok inc)) :
    inc.notes.length = req.notes.length ∧
      ∀ i, i < req.notes.length →
        (inc.notes.getD i default).content = (req.notes.getD i default).content ∧
        (inc.notes.getD i default).authorEmail =
          (req.notes.getD i default).authorEmail ∧
        (inc.notes.getD i default).id = st.nextOid + i ∧
        (inc.notes.getD i default).createdAt = st.now ∧
        (inc.notes.getD i default).type = "" := by
  obtain ⟨hinc, _⟩ := createIncident_ok_inv ev st req st' inc h
  subst hinc
  constructor
  · exact assignNoteIds_length st.nextOid st.now req.notes
  · intro i hi
    have hgd := assignNoteIds_getD st.now req.notes st.nextOid i hi default default
    have hnotes : (createdIncident st req).notes =
        assignNoteIds st.nextOid st.now req.notes := rfl
    rw [hnotes, hgd]
    exact ⟨rfl, rfl, rfl, rfl, rfl⟩
/-- Fixture: a creation request carrying one note of type `update`. -/
def sampleReq : CreateIncidentRequest :=
  { title := "Database Connection Failed", severity := Critical,
    description := "", authorEmail := "a@b.com", assignee := "",
    notes := [{ id := 99, content := "first look", createdAt := 5,
                authorEmail := "a@b.com", type := "update" }] }

/-- Witness for C2 on the concrete creation run. -/
theorem C2_create_defaults_witness :
    (sampleCreated.status = Open ∧
      sampleCreated.createdAt = sampleCreated.updatedAt ∧
      sampleCreated.incidentKey = getNextIncidentKey emptyStore ∧
      (∀ j ∈ emptyStore.incidents, j.incidentKey < sampleCreated.incidentKey) ∧
      ((∀ j ∈ emptyStore.incidents, j.id < emptyStore.nextOid) →
        ∀ j ∈ emptyStore.incidents, j.id ≠ sampleCreated.id)) :=
  C2_create_defaults (fun _ => true) emptyStore sampleReq sampleCreatedStore
    sampleCreated (by rfl)

/-- Witness for C7 on the concrete creation run over the empty store. -/
theorem C7_next_incident_key_witness :
    (sampleCreated.incidentKey = getNextIncidentKey emptyStore ∧
      (emptyStore.incidents = [] → sampleCreated.incidentKey = 1) ∧
      (∀ j ∈ emptyStore.incidents, j.incidentKey < sampleCreated.incidentKey) ∧
      (emptyStore.incidents ≠ [] →
        ∃ j ∈ emptyStore.incidents,
          sampleCreated.incidentKey = j.incidentKey + 1)) :=
  C7_next_incident_key (fun _ => true) emptyStore sampleReq sampleCreatedStore
    sampleCreated (by rfl)

/-- Witness for C10: the note supplied with type `update` is persisted
with type `""`. -/
theorem C10_creation_notes_lose_type_witness :
    (sampleCreated.notes.length = sampleReq.notes.length ∧
      ∀ i, i < sampleReq.notes.length →
        (sampleCreated.notes.getD i default).content =
          (sampleReq.notes.getD i default).content ∧
        (sampleCreated.notes.getD i default).authorEmail =
          (sampleReq.notes.getD i default).authorEmail ∧
        (sampleCreated.notes.getD i default).id = emptyStore.nextOid + i ∧
        (sampleCreated.notes.getD i default).createdAt = emptyStore.now ∧
        (sampleCreated.notes.getD i default).type = "") :=
  C10_creation_notes_lose_type (fun _ => true) emptyStore sampleReq
    sampleCreatedStore sampleCreated (by rfl)
/-- Note-type constant `models.Update`. -/
def Update : String := "update"

set_option maxRecDepth 100000 in
/-- C3: the only title check anywhere in the create path is the handler's
empty-string test, so titles of 2 and 256 characters are accepted (the
declared 3-255 bound is never enforced), titles of 3 and 255 characters
are accepted, and only the empty title is rejected. -/
theorem C3_title_bounds_not_enforced :
    (handlerCreateIncident (fun _ => true) emptyStore
        { title := "ab", severity := Low, description := "", notes := [],
          authorEmail := "", assignee := "" }).2.isOk = true ∧
      ("ab" : String).length = 2 ∧
      (handlerCreateIncident (fun _ => true) emptyStore
          { title := String.mk (List.replicate 256 'a'), severity := Low,
            description := "", notes := [], authorEmail := "",
            assignee := "" }).2.isOk = true ∧
      (String.mk (List.replicate 256 'a')).length = 256 ∧
      (handlerCreateIncident (fun _ => true) emptyStore
          { title := "abc", severity := Low, description := "", notes := [],
            authorEmail := "", assignee := "" }).2.isOk = true ∧
      (handlerCreateIncident (fun _ => true) emptyStore
          { title := String.mk (List.replicate 255 'a'), severity := Low,
            description := "", notes := [], authorEmail := "",
            assignee := "" }).2.isOk = true ∧
      (handlerCreateIncident (fun _ => true) emptyStore
          { title := "", severity := Low, description := "", notes := [],
            authorEmail := "", assignee := "" }) =
        (emptyStore, .error .titleRequired) := by
  refine ⟨rfl, rfl, rfl, by decide, rfl, rfl, rfl⟩

set_option maxRecDepth 100000 in
/-- C4: AddNote rejects a missing incident and an empty content, but the
declared 1000-character content bound and the note-type enum are never
checked: a 1001-character content and an unknown type are accepted. -/
theorem C4_note_validation_gaps :
    (handlerAddNoteToIncident sampleStore "1"
        { content := "x", authorEmail := "", type := "bogus" }).2.isOk = true ∧
      (handlerAddNoteToIncident sampleStore "1"
          { content := longContent, authorEmail := "",
            type := Update }).2.isOk = true ∧
      longContent.length = 1001 ∧
      (handlerAddNoteToIncident sampleStore "1"
          { content := String.mk (List.replicate 1000 'x'), authorEmail := "",
            type := Update }).2.isOk = true ∧
      (handlerAddNoteToIncident sampleStore "1"
          { content := "", authorEmail := "", type := Update }) =
        (sampleStore, .error .contentRequired) ∧
      (handlerAddNoteToIncident sampleStore "99"
          { content := "x", authorEmail := "", type := Update }) =
        (sampleStore, .error (.serviceFailed (.incidentNotFound .notFound))) := by
  refine ⟨rfl, rfl, by decide, rfl, rfl, rfl⟩

end IncidentSvc
